import Mathlib

/-
Verification of the disk-monitoring script (src/script.py) against its
specification. The program enumerates mounted filesystems from the
mount table, filters them, compares free space against a threshold and
posts alerts to a chat channel.

The embedding below is a shallow model of script.py:
* `Partition` mirrors the `Partition` NamedTuple (byte counts as exact
  integers; the Python code stores them in `bitmath.Byte` objects whose
  values are these integers).
* Python string operations (`str.split()`, `str.startswith`,
  `str.strip()`) are modelled by structural recursion over the
  character list of a `String`, following Python semantics.
* `disk_partitions` mirrors the enumerator: reading /proc/filesystems
  and /etc/mtab is modelled by passing the two files as lists of lines,
  and `os.statvfs` by a function argument. A Python `IndexError` from
  `fields[i]` is modelled by `Except.error`.
* `select_disk_partitions` mirrors the selector filter.
* `run_main` mirrors `main`: observable effects (prints, statvfs
  queries, Slack API calls) are collected in an event trace, the Slack
  client is modelled by a `deliver` function returning an optional
  `SlackApiError`, and `exit(1)` by the trace's exit code.
-/

/-- Python's `s.startswith(pfx)`: `pfx`'s characters are a prefix of
`s`'s characters. -/
def pyStartsWith (s pfx : String) : Bool :=
  pfx.data.isPrefixOf s.data

/-- Helper for `pySplit`: walks the character list, accumulating the
current field in reverse. -/
def pySplitAux : List Char → List Char → List String
  | [], acc => if acc.isEmpty then [] else [String.mk acc.reverse]
  | c :: cs, acc =>
      if c.isWhitespace then
        (if acc.isEmpty then pySplitAux cs [] else String.mk acc.reverse :: pySplitAux cs [])
      else pySplitAux cs (c :: acc)

/-- Python's `s.split()` with no argument: split on runs of whitespace,
discarding empty fields. -/
def pySplit (s : String) : List String :=
  pySplitAux s.data []

/-- Drops leading whitespace characters. -/
def dropLeadingWs : List Char → List Char
  | [] => []
  | c :: cs => if c.isWhitespace then dropLeadingWs cs else c :: cs

/-- Python's `s.strip()`: remove leading and trailing whitespace. -/
def pyStrip (s : String) : String :=
  String.mk (dropLeadingWs ((dropLeadingWs s.data).reverse)).reverse

/-- Result of `os.statvfs(mountpoint)`: the four fields the script reads.
All are non-negative counters in the OS interface. -/
structure StatVFS where
  f_frsize : Nat
  f_blocks : Nat
  f_bfree : Nat
  f_bavail : Nat
deriving DecidableEq, Repr

/-- The `Partition` NamedTuple of script.py. Byte counts are exact
integers (the values wrapped in `bitmath.Byte` by the script). -/
structure Partition where
  device : String
  mountpoint : String
  fstype : String
  total_bytes : Int
  used_bytes : Int
  free_bytes : Int
deriving DecidableEq, Repr

/-- A Python float that is either NaN or an exact numeric value; used to
model the result of `Partition.proportion_free`. -/
inductive FloatVal where
  | nan : FloatVal
  | val : ℚ → FloatVal
deriving DecidableEq

/-- `Partition.proportion_free` from script.py: `float('nan')` when
`total_bytes == 0`, otherwise `free_bytes / total_bytes`. -/
def Partition.proportion_free (p : Partition) : FloatVal :=
  if p.total_bytes = 0 then .nan
  else .val ((p.free_bytes : ℚ) / (p.total_bytes : ℚ))

/-- The `phydevs` list built by `disk_partitions` from the lines of
/proc/filesystems: every stripped line that does not start with
"nodev". -/
def phydevsOf (filesystems : List String) : List String :=
  (filesystems.filter (fun l => !(pyStartsWith l "nodev"))).map pyStrip

/-- The body of the /etc/mtab loop of `disk_partitions` for one line:
`.ok none` when the line is skipped, `.ok (some p)` when a partition is
emitted, `.error` when `fields[i]` raises `IndexError`. -/
def processMtabLine (includeVirtual : Bool) (phydevs : List String)
    (statvfs : String → StatVFS) (line : String) : Except String (Option Partition) :=
  if !includeVirtual && pyStartsWith line "none" then .ok none
  else
    match (pySplit line).get? 0, (pySplit line).get? 1, (pySplit line).get? 2 with
    | some device0, some mountpoint, some fstype =>
        if !includeVirtual && !(phydevs.contains fstype) then .ok none
        else
          .ok (some ⟨if device0 = "none" then "" else device0, mountpoint, fstype,
            ((statvfs mountpoint).f_blocks : Int) * ((statvfs mountpoint).f_frsize : Int),
            (((statvfs mountpoint).f_blocks : Int) - ((statvfs mountpoint).f_bfree : Int))
              * ((statvfs mountpoint).f_frsize : Int),
            ((statvfs mountpoint).f_bavail : Int) * ((statvfs mountpoint).f_frsize : Int)⟩)
    | _, _, _ => .error "IndexError"

/-- The /etc/mtab loop of `disk_partitions`, line by line. An error
(Python exception) on one line aborts the whole loop. -/
def enumerateMtab (includeVirtual : Bool) (phydevs : List String)
    (statvfs : String → StatVFS) : List String → Except String (List Partition)
  | [] => .ok []
  | line :: rest =>
      match processMtabLine includeVirtual phydevs statvfs line with
      | .error e => .error e
      | .ok p? =>
          match enumerateMtab includeVirtual phydevs statvfs rest with
          | .error e => .error e
          | .ok ps => .ok (p?.toList ++ ps)

/-- `disk_partitions` from script.py, with the two system files passed
as lists of lines and `os.statvfs` as a function. -/
def disk_partitions (statvfs : String → StatVFS) (filesystems mtab : List String)
    (includeVirtual : Bool) : Except String (List Partition) :=
  enumerateMtab includeVirtual (phydevsOf filesystems) statvfs mtab

/-- The keep-condition of `select_disk_partitions`:
`len(p.mountpoint) > 0 and not p.mountpoint.startswith("/snap") and not
p.mountpoint.startswith("/boot")`. -/
def keepPartition (p : Partition) : Bool :=
  decide (0 < p.mountpoint.length) && !(pyStartsWith p.mountpoint "/snap")
    && !(pyStartsWith p.mountpoint "/boot")

/-- `select_disk_partitions` from script.py, applied to the enumerated
partitions. -/
def select_disk_partitions (ps : List Partition) : List Partition :=
  ps.filter keepPartition

/-- Modelled from the spec: the Unit Converter's supported units are the
binary-multiple units; unit `k` has granularity `2 ^ (10 * k)` bytes
(Byte, KiB, MiB, GiB, ...). The converter itself lives in the external
`bitmath` library, not in src/. -/
def unitSize (k : ℕ) : ℚ :=
  2 ^ (10 * k)

/-- Modelled from the spec: the display names of the binary units. -/
def unitNames : List String :=
  ["Byte", "KiB", "MiB", "GiB", "TiB", "PiB", "EiB", "ZiB", "YiB"]

/-- Modelled from the spec: `best_prefix` chooses the largest supported
unit whose granularity does not exceed the byte count. -/
def bestPrefixExp (b : ℚ) : ℕ :=
  ((List.range 9).filter (fun k => unitSize k ≤ |b|)).foldl max 0

/-- Rounding to two decimal places, as in rendering with the
`"value rounded to 2 decimals"` contract of the spec. -/
def round2 (x : ℚ) : ℚ :=
  ((round (100 * x) : ℤ) : ℚ) / 100

/-- Renders a rational with exactly two decimal places. -/
def fmt2dec (q : ℚ) : String :=
  let n : ℤ := round (100 * q)
  let a := n.natAbs
  (if n < 0 then "-" else "") ++ toString (a / 100) ++ "."
    ++ (if a % 100 < 10 then "0" else "") ++ toString (a % 100)

/-- Modelled from the spec: `format(byte_count)` of the Unit Converter —
`best_prefix()` then `"{value:.2f} {unit}"`-style rendering (the
implementation is the external `bitmath` library). -/
def bitmathFormat (b : ℚ) : String :=
  let k := bestPrefixExp b
  fmt2dec (b / unitSize k) ++ " " ++ unitNames.getD k "YiB"

/-- Modelled from the spec: formatting a byte count expressed in unit
`k`: the scaled value rounded to two decimals. -/
def formatValueIn (k : ℕ) (b : ℚ) : ℚ :=
  round2 (b / unitSize k)

/-- Modelled from the spec: parsing a coefficient expressed in unit `k`
back to a byte count. -/
def parseValueIn (k : ℕ) (v : ℚ) : ℚ :=
  v * unitSize k

/-- `Partition.report_str` from script.py (the bitmath formatting of the
two byte counts is the spec-modelled converter). -/
def Partition.report_str (p : Partition) : String :=
  bitmathFormat (p.free_bytes : ℚ) ++ " / " ++ bitmathFormat (p.total_bytes : ℚ)
    ++ " free space remaining on (device=" ++ p.device
    ++ ", mountpoint=" ++ p.mountpoint ++ ")"

/-- The alert message built in `main` for a partition below threshold
(`hostname` is `socket.getfqdn()`, `thresholdStr` the display form of
`warning_threshold`). -/
def alert_msg (hostname thresholdStr : String) (p : Partition) : String :=
  ":robot_face: :hourglass_flowing_sand: :warning: WARNING: Low disk space on `"
    ++ hostname ++ " (" ++ p.device ++ ")` (threshold: <=" ++ thresholdStr ++ ").\n`"
    ++ p.report_str ++ "`"

/-- The Alert Evaluator embodied in `main`'s loop: the selected
partitions whose `free_bytes` is strictly below the threshold, paired
with their alert messages. The threshold is the exact byte value of
`warning_threshold`. -/
def evaluate_alerts (threshold : ℚ) (hostname thresholdStr : String)
    (ps : List Partition) : List (Partition × String) :=
  (ps.filter (fun p => decide ((p.free_bytes : ℚ) < threshold))).map
    (fun p => (p, alert_msg hostname thresholdStr p))

/-- A `slack_sdk.errors.SlackApiError`: its response's `ok` flag and
`error` string. -/
structure SlackApiError where
  ok : Bool
  error : String
deriving DecidableEq, Repr

/-- An observable effect of one run: a line printed to stdout, an
`os.statvfs` query, or a `chat_postMessage` call (message, channel). -/
inductive Event where
  | printed : String → Event
  | statQuery : String → Event
  | apiCall : String → String → Event
deriving DecidableEq, Repr

/-- The observable outcome of a run: its event trace and exit code. -/
structure Trace where
  events : List Event
  exitCode : Nat
deriving DecidableEq, Repr

/-- `slack_print` from script.py: attempt `chat_postMessage`; on
`SlackApiError` assert `ok` is `False` and `error` is non-empty, then
print the error reason. A failed assertion is an uncaught
`AssertionError`, modelled by `.error`. `deliver` models the Slack
client: `none` is success, `some e` a raised `SlackApiError`. -/
def slack_print (deliver : String → String → Option SlackApiError)
    (msg channel : String) : Except String (List Event) :=
  match deliver msg channel with
  | none => .ok [.apiCall msg channel]
  | some e =>
      if e.ok = false ∧ e.error ≠ "" then
        .ok [.apiCall msg channel, .printed ("Got an error: " ++ e.error)]
      else .error "AssertionError"

/-- The alert loop of `main`: print each alert message, then attempt
Slack delivery via `slack_print`. -/
def notify_alerts (deliver : String → String → Option SlackApiError)
    (channel : String) : List String → Except String (List Event)
  | [] => .ok []
  | msg :: rest =>
      match slack_print deliver msg channel with
      | .error e => .error e
      | .ok es =>
          match notify_alerts deliver channel rest with
          | .error e => .error e
          | .ok rest' => .ok ((Event.printed msg :: es) ++ rest')

/-- `token = token or os.environ.get('SLACK_BOT_TOKEN')` from `main`:
a falsy (empty or absent) explicit token falls back to the
environment. -/
def resolve_token : Option String → Option String → Option String
  | some t, envToken => if t = "" then envToken else some t
  | none, envToken => envToken

/-- The scanning branch of `main` (after the credential check):
enumerate, select, evaluate alerts, print and deliver each. The
statvfs queries appear first in the trace because
`select_disk_partitions()` builds the full list before the loop. -/
def main_scan (deliver : String → String → Option SlackApiError)
    (statvfs : String → StatVFS) (filesystems mtab : List String)
    (hostname : String) (threshold : ℚ) (thresholdStr channel : String) :
    Except String Trace :=
  match disk_partitions statvfs filesystems mtab false with
  | .error e => .error e
  | .ok parts =>
      match notify_alerts deliver channel
          ((evaluate_alerts threshold hostname thresholdStr
            (select_disk_partitions parts)).map Prod.snd) with
      | .error e => .error e
      | .ok es => .ok ⟨parts.map (fun p => Event.statQuery p.mountpoint) ++ es, 0⟩

/-- `main` from script.py: resolve the credential; if none, print the
diagnostic and exit 1 without scanning; otherwise scan and alert. -/
def run_main (deliver : String → String → Option SlackApiError)
    (statvfs : String → StatVFS) (filesystems mtab : List String)
    (hostname : String) (token envToken : Option String)
    (threshold : ℚ) (thresholdStr channel : String) : Except String Trace :=
  match resolve_token token envToken with
  | none => .ok ⟨[.printed "Unable to print to Slack because SLACK_BOT_TOKEN env var not set"], 1⟩
  | some _ => main_scan deliver statvfs filesystems mtab hostname threshold thresholdStr channel

/-- A sample partition used to instantiate theorems with hypotheses. -/
def samplePartition : Partition :=
  ⟨"/dev/sda1", "/", "ext4", 4096000, 3686400, 368640⟩

/-- A sample partition whose free space is below the sample threshold. -/
def sampleLowFree : Partition :=
  ⟨"/dev/sdb1", "/data", "ext4", 100, 95, 5⟩

theorem string_length_pos_iff (s : String) : 0 < s.length ↔ s ≠ "" := by
  rw [Nat.pos_iff_ne_zero]
  constructor
  · intro h he
    exact h (by rw [he]; rfl)
  · intro h hl
    apply h
    cases s with
    | mk data =>
        cases data with
        | nil => rfl
        | cons c cs => simp [String.length] at hl

theorem keepPartition_iff (p : Partition) :
    keepPartition p = true ↔
      p.mountpoint ≠ "" ∧ pyStartsWith p.mountpoint "/snap" = false ∧
        pyStartsWith p.mountpoint "/boot" = false := by
  simp [keepPartition, Bool.and_eq_true, decide_eq_true_eq, Bool.not_eq_true',
    string_length_pos_iff, and_assoc]

/-- C2: the Partition Selector keeps a partition iff its mountpoint is
non-empty and begins with neither "/snap" nor "/boot"; the kept
partitions are a sublist of the input (same relative order, values
unmodified). -/
theorem selector_keep_iff_and_order (ps : List Partition) (p : Partition) :
    (p ∈ select_disk_partitions ps ↔
        p ∈ ps ∧ p.mountpoint ≠ "" ∧ pyStartsWith p.mountpoint "/snap" = false ∧
          pyStartsWith p.mountpoint "/boot" = false) ∧
    List.Sublist (select_disk_partitions ps) ps := by
  refine ⟨?_, List.filter_sublist _⟩
  rw [select_disk_partitions, List.mem_filter, keepPartition_iff]

/-- Witness for C2 at a concrete partition and input list. -/
theorem selector_keep_iff_and_order_check :
    (samplePartition ∈ select_disk_partitions [samplePartition] ↔
        samplePartition ∈ [samplePartition] ∧ samplePartition.mountpoint ≠ "" ∧
          pyStartsWith samplePartition.mountpoint "/snap" = false ∧
          pyStartsWith samplePartition.mountpoint "/boot" = false) ∧
    List.Sublist (select_disk_partitions [samplePartition]) [samplePartition] :=
  selector_keep_iff_and_order [samplePartition] samplePartition

/-- C1: for every selected partition, the Alert Evaluator produces an
alert for it iff its `free_bytes` is strictly below the threshold;
at `free_bytes = threshold` no alert is produced. -/
theorem evaluator_alert_iff (threshold : ℚ) (hostname thresholdStr : String)
    (ps : List Partition) (p : Partition) (hmem : p ∈ ps) :
    ((∃ m, (p, m) ∈ evaluate_alerts threshold hostname thresholdStr ps) ↔
        (p.free_bytes : ℚ) < threshold) ∧
    ((p.free_bytes : ℚ) = threshold →
      ¬ ∃ m, (p, m) ∈ evaluate_alerts threshold hostname thresholdStr ps) := by
  have key : (∃ m, (p, m) ∈ evaluate_alerts threshold hostname thresholdStr ps) ↔
      (p.free_bytes : ℚ) < threshold := by
    constructor
    · rintro ⟨m, hm⟩
      simp only [evaluate_alerts, List.mem_map] at hm
      obtain ⟨q, hq, heq⟩ := hm
      obtain ⟨hqmem, hlt⟩ := List.mem_filter.1 hq
      have hqp : q = p := congrArg Prod.fst heq
      subst hqp
      exact of_decide_eq_true hlt
    · intro hlt
      refine ⟨alert_msg hostname thresholdStr p, ?_⟩
      simp only [evaluate_alerts, List.mem_map]
      exact ⟨p, List.mem_filter.2 ⟨hmem, decide_eq_true hlt⟩, rfl⟩
  refine ⟨key, fun heq hex => ?_⟩
  have := key.1 hex
  rw [heq] at this
  exact lt_irrefl _ this

/-- Witness for C1 at a concrete partition below a concrete threshold. -/
theorem evaluator_alert_iff_check :
    ((∃ m, (sampleLowFree, m) ∈ evaluate_alerts 10 "host" "10 Byte" [sampleLowFree]) ↔
        (sampleLowFree.free_bytes : ℚ) < 10) ∧
    ((sampleLowFree.free_bytes : ℚ) = 10 →
      ¬ ∃ m, (sampleLowFree, m) ∈ evaluate_alerts 10 "host" "10 Byte" [sampleLowFree]) :=
  evaluator_alert_iff 10 "host" "10 Byte" [sampleLowFree] sampleLowFree
    (List.mem_singleton.2 rfl)

/-- C3: with no resolvable credential the run prints the diagnostic and
exits with code 1, making no statvfs queries and no Slack API calls;
with a resolvable credential it proceeds to the scanning branch. -/
theorem credential_gate (deliver : String → String → Option SlackApiError)
    (statvfs : String → StatVFS) (filesystems mtab : List String)
    (hostname : String) (token envToken : Option String)
    (threshold : ℚ) (thresholdStr channel : String) :
    (resolve_token token envToken = none →
      run_main deliver statvfs filesystems mtab hostname token envToken threshold thresholdStr channel =
        .ok ⟨[Event.printed "Unable to print to Slack because SLACK_BOT_TOKEN env var not set"], 1⟩ ∧
      (∀ m c, Event.apiCall m c ∉
        ([Event.printed "Unable to print to Slack because SLACK_BOT_TOKEN env var not set"] : List Event)) ∧
      (∀ mp, Event.statQuery mp ∉
        ([Event.printed "Unable to print to Slack because SLACK_BOT_TOKEN env var not set"] : List Event))) ∧
    (∀ t, resolve_token token envToken = some t →
      run_main deliver statvfs filesystems mtab hostname token envToken threshold thresholdStr channel =
        main_scan deliver statvfs filesystems mtab hostname threshold thresholdStr channel) := by
  constructor
  · intro h
    exact ⟨by simp [run_main, h], by simp, by simp⟩
  · intro t h
    simp [run_main, h]

/-- Witness for C3: both credential sources absent. -/
theorem credential_gate_check :
    run_main (fun _ _ => none) (fun _ => ⟨1, 1, 1, 1⟩) [] [] "host" none none 10 "10 Byte" "#chan" =
      .ok ⟨[Event.printed "Unable to print to Slack because SLACK_BOT_TOKEN env var not set"], 1⟩ :=
  ((credential_gate (fun _ _ => none) (fun _ => ⟨1, 1, 1, 1⟩) [] [] "host" none none
    10 "10 Byte" "#chan").1 rfl).1

/-- C6: `proportion_free` reports NaN ("undefined") when
`total_bytes = 0` and the exact quotient when `total_bytes > 0`; it is
a total function on partitions. -/
theorem proportion_free_total_spec (p : Partition) :
    (p.total_bytes = 0 → p.proportion_free = FloatVal.nan) ∧
    (0 < p.total_bytes →
      p.proportion_free = FloatVal.val ((p.free_bytes : ℚ) / (p.total_bytes : ℚ))) := by
  constructor
  · intro h
    simp [Partition.proportion_free, h]
  · intro h
    simp [Partition.proportion_free, h.ne']

/-- Witness for C6 at a concrete partition with positive total. -/
theorem proportion_free_total_spec_check :
    (0 : Int) < samplePartition.total_bytes ∧
      samplePartition.proportion_free =
        FloatVal.val ((samplePartition.free_bytes : ℚ) / (samplePartition.total_bytes : ℚ)) :=
  ⟨by decide, (proportion_free_total_spec samplePartition).2 (by decide)⟩

/-- C8: formatting a byte count in unit `k` (scaled value rounded to two
decimals) and parsing it back reproduces the byte count within 0.01 of
the unit's granularity. -/
theorem unit_converter_roundtrip (b k : ℕ) :
    |parseValueIn k (formatValueIn k (b : ℚ)) - (b : ℚ)| ≤ (1 / 100) * unitSize k := by
  have hS : (0 : ℚ) < unitSize k := by
    unfold unitSize; positivity
  have hkey : parseValueIn k (formatValueIn k (b : ℚ)) - (b : ℚ) =
      (unitSize k / 100) * (((round (100 * ((b : ℚ) / unitSize k)) : ℤ) : ℚ) -
        100 * ((b : ℚ) / unitSize k)) := by
    unfold parseValueIn formatValueIn round2
    field_simp
    ring
  rw [hkey, abs_mul, abs_of_pos (by positivity : (0 : ℚ) < unitSize k / 100)]
  have habs : |((round (100 * ((b : ℚ) / unitSize k)) : ℤ) : ℚ) -
      100 * ((b : ℚ) / unitSize k)| ≤ 1 / 2 := by
    rw [abs_sub_comm]
    exact abs_sub_round _
  have hstep : unitSize k / 100 * |((round (100 * ((b : ℚ) / unitSize k)) : ℤ) : ℚ) -
      100 * ((b : ℚ) / unitSize k)| ≤ unitSize k / 100 * (1 / 2) :=
    mul_le_mul_of_nonneg_left habs (by positivity)
  refine hstep.trans ?_
  linarith

/-- A sample statvfs answer used to instantiate theorems:
4096-byte blocks, 1000 total, 100 free including reserved, 90
available. -/
def sampleStat : String → StatVFS :=
  fun _ => ⟨4096, 1000, 100, 90⟩

/-- The retention condition of the mtab loop for one raw line (with
`include_virtual = false`): the raw line does not begin with "none" and
its third field is a registered physical filesystem type. -/
def keepLine (phydevs : List String) (line : String) : Bool :=
  !(pyStartsWith line "none") && phydevs.contains ((pySplit line).getD 2 "")

/-- The partition the mtab loop emits for a retained line (device and
mountpoint are the first two fields, statistics from `statvfs` on the
mountpoint). -/
def mkPartition (statvfs : String → StatVFS) (line : String) : Partition :=
  ⟨if (pySplit line).getD 0 "" = "none" then "" else (pySplit line).getD 0 "",
    (pySplit line).getD 1 "", (pySplit line).getD 2 "",
    ((statvfs ((pySplit line).getD 1 "")).f_blocks : Int)
      * ((statvfs ((pySplit line).getD 1 "")).f_frsize : Int),
    (((statvfs ((pySplit line).getD 1 "")).f_blocks : Int)
      - ((statvfs ((pySplit line).getD 1 "")).f_bfree : Int))
      * ((statvfs ((pySplit line).getD 1 "")).f_frsize : Int),
    ((statvfs ((pySplit line).getD 1 "")).f_bavail : Int)
      * ((statvfs ((pySplit line).getD 1 "")).f_frsize : Int)⟩

theorem get?_eq_some_getD {α : Type} (l : List α) (n : ℕ) (d : α) (h : n < l.length) :
    l.get? n = some (l.getD n d) := by
  rw [List.getD_eq_get?]
  cases hg : l.get? n with
  | none =>
      rw [List.get?_eq_none] at hg
      omega
  | some a => rfl

theorem processMtabLine_none_skip (phydevs : List String) (statvfs : String → StatVFS)
    (line : String) (hs : pyStartsWith line "none" = true) :
    processMtabLine false phydevs statvfs line = .ok none := by
  simp [processMtabLine, hs]

theorem processMtabLine_no_skip (phydevs : List String) (statvfs : String → StatVFS)
    (line : String) (hs : pyStartsWith line "none" = false)
    (hlen : 3 ≤ (pySplit line).length) :
    processMtabLine false phydevs statvfs line =
      if phydevs.contains ((pySplit line).getD 2 "") then .ok (some (mkPartition statvfs line))
      else .ok none := by
  have h0 : (pySplit line).get? 0 = some ((pySplit line).getD 0 "") :=
    get?_eq_some_getD _ _ _ (by omega)
  have h1 : (pySplit line).get? 1 = some ((pySplit line).getD 1 "") :=
    get?_eq_some_getD _ _ _ (by omega)
  have h2 : (pySplit line).get? 2 = some ((pySplit line).getD 2 "") :=
    get?_eq_some_getD _ _ _ (by omega)
  rw [processMtabLine]
  rw [h0, h1, h2]
  simp only [hs, Bool.not_false, Bool.and_false, Bool.false_and, if_false]
  by_cases hc : (phydevs.contains ((pySplit line).getD 2 "")) = true
  · simp [hc, mkPartition]
  · simp [Bool.eq_false_iff.2 hc, mkPartition]

/-- C5: with `include_virtual = false` and every non-skipped mount line
well-formed (at least three fields), the Enumerator emits exactly the
mount entries whose raw line does not begin with "none" and whose
filesystem type is among the registry types not marked "nodev", each
mapped to the partition built from its fields and statvfs data. -/
theorem enumerator_registry_filter (statvfs : String → StatVFS)
    (filesystems mtab : List String)
    (hfields : ∀ line ∈ mtab, pyStartsWith line "none" = false → 3 ≤ (pySplit line).length) :
    disk_partitions statvfs filesystems mtab false =
      .ok ((mtab.filter (keepLine (phydevsOf filesystems))).map (mkPartition statvfs)) := by
  unfold disk_partitions
  induction mtab with
  | nil => rfl
  | cons line rest ih =>
      have hrest := ih (fun l hl => hfields l (List.mem_cons_of_mem _ hl))
      have hline := hfields line (List.mem_cons_self _ _)
      cases hs : pyStartsWith line "none" with
      | true =>
          rw [enumerateMtab, processMtabLine_none_skip _ _ _ hs, hrest]
          simp [keepLine, hs]
      | false =>
          rw [enumerateMtab, processMtabLine_no_skip _ _ _ hs (hline hs)]
          by_cases hc : ((phydevsOf filesystems).contains ((pySplit line).getD 2 "")) = true
          · have hk : keepLine (phydevsOf filesystems) line = true := by
              simp only [keepLine, hs, Bool.not_false, Bool.true_and]
              exact hc
            rw [if_pos hc, hrest, List.filter_cons, hk]
            simp
          · have hk : keepLine (phydevsOf filesystems) line = false := by
              simp only [keepLine, hs, Bool.not_false, Bool.true_and]
              exact Bool.eq_false_iff.2 hc
            rw [if_neg (by simpa using hc), hrest, List.filter_cons, hk]
            simp

/-- Witness for C5: the spec's scenario — registry with `tmpfs` marked
"nodev" and `ext4` unmarked, mount table with an ext4 root line and a
"none"-device tmpfs line — yields exactly the one ext4 partition. -/
theorem enumerator_registry_filter_check :
    (∀ line ∈ (["/dev/sda1 / ext4 rw 0 0", "none /run tmpfs rw 0 0"] : List String),
        pyStartsWith line "none" = false → 3 ≤ (pySplit line).length) ∧
    disk_partitions sampleStat ["nodev\ttmpfs", "ext4"]
        ["/dev/sda1 / ext4 rw 0 0", "none /run tmpfs rw 0 0"] false =
      .ok [⟨"/dev/sda1", "/", "ext4", 4096000, 3686400, 368640⟩] := by
  refine ⟨by decide, ?_⟩
  rw [enumerator_registry_filter sampleStat ["nodev\ttmpfs", "ext4"]
    ["/dev/sda1 / ext4 rw 0 0", "none /run tmpfs rw 0 0"] (by decide)]
  rfl

theorem enumerateMtab_mem (iv : Bool) (phydevs : List String) (statvfs : String → StatVFS)
    (mtab : List String) (parts : List Partition)
    (h : enumerateMtab iv phydevs statvfs mtab = .ok parts) (p : Partition) (hp : p ∈ parts) :
    ∃ line ∈ mtab, processMtabLine iv phydevs statvfs line = .ok (some p) := by
  induction mtab generalizing parts with
  | nil =>
      rw [enumerateMtab] at h
      obtain rfl := Except.ok.inj h
      exact absurd hp (List.not_mem_nil p)
  | cons line rest ih =>
      rw [enumerateMtab] at h
      cases hpl : processMtabLine iv phydevs statvfs line with
      | error e => rw [hpl] at h; exact absurd h (by simp)
      | ok p? =>
          rw [hpl] at h
          cases hrest : enumerateMtab iv phydevs statvfs rest with
          | error e => rw [hrest] at h; exact absurd h (by simp)
          | ok ps =>
              rw [hrest] at h
              obtain rfl := Except.ok.inj h
              rcases List.mem_append.1 hp with hmem | hmem
              · cases p? with
                | none => exact absurd hmem (by simp)
                | some q =>
                    have hq : p = q := by simpa using hmem
                    subst hq
                    exact ⟨line, List.mem_cons_self _ _, hpl⟩
              · obtain ⟨l, hl, hpl'⟩ := ih ps hrest hmem
                exact ⟨l, List.mem_cons_of_mem _ hl, hpl'⟩

theorem processMtabLine_some_stats (iv : Bool) (phydevs : List String)
    (statvfs : String → StatVFS) (line : String) (p : Partition)
    (h : processMtabLine iv phydevs statvfs line = .ok (some p)) :
    p.free_bytes = ((statvfs p.mountpoint).f_bavail : Int) * ((statvfs p.mountpoint).f_frsize : Int) ∧
    p.total_bytes = ((statvfs p.mountpoint).f_blocks : Int) * ((statvfs p.mountpoint).f_frsize : Int) ∧
    p.used_bytes = (((statvfs p.mountpoint).f_blocks : Int) - ((statvfs p.mountpoint).f_bfree : Int))
      * ((statvfs p.mountpoint).f_frsize : Int) := by
  rw [processMtabLine] at h
  split at h
  · exact absurd h (by simp)
  · split at h
    · split at h
      · exact absurd h (by simp)
      · obtain rfl := (Option.some.inj (Except.ok.inj h)).symm
        exact ⟨rfl, rfl, rfl⟩
    · exact absurd h (by simp)

/-- C7: every partition emitted by the Enumerator carries exactly
`free = f_bavail * f_frsize`, `total = f_blocks * f_frsize` and
`used = (f_blocks - f_bfree) * f_frsize` computed from the statvfs
answer for its mountpoint, in exact integer arithmetic. -/
theorem enumerator_stat_arithmetic (statvfs : String → StatVFS)
    (filesystems mtab : List String) (iv : Bool) (parts : List Partition)
    (h : disk_partitions statvfs filesystems mtab iv = .ok parts) :
    ∀ p ∈ parts,
      p.free_bytes = ((statvfs p.mountpoint).f_bavail : Int) * ((statvfs p.mountpoint).f_frsize : Int) ∧
      p.total_bytes = ((statvfs p.mountpoint).f_blocks : Int) * ((statvfs p.mountpoint).f_frsize : Int) ∧
      p.used_bytes = (((statvfs p.mountpoint).f_blocks : Int) - ((statvfs p.mountpoint).f_bfree : Int))
        * ((statvfs p.mountpoint).f_frsize : Int) := by
  intro p hp
  obtain ⟨line, _, hpl⟩ := enumerateMtab_mem iv (phydevsOf filesystems) statvfs mtab parts h p hp
  exact processMtabLine_some_stats iv (phydevsOf filesystems) statvfs line p hpl

/-- Witness for C7 on the concrete sample enumeration, instantiated at
its one emitted partition. -/
theorem enumerator_stat_arithmetic_check :
    (⟨"/dev/sda1", "/", "ext4", 4096000, 3686400, 368640⟩ : Partition).free_bytes =
        ((sampleStat "/").f_bavail : Int) * ((sampleStat "/").f_frsize : Int) ∧
      (⟨"/dev/sda1", "/", "ext4", 4096000, 3686400, 368640⟩ : Partition).total_bytes =
        ((sampleStat "/").f_blocks : Int) * ((sampleStat "/").f_frsize : Int) ∧
      (⟨"/dev/sda1", "/", "ext4", 4096000, 3686400, 368640⟩ : Partition).used_bytes =
        (((sampleStat "/").f_blocks : Int) - ((sampleStat "/").f_bfree : Int))
          * ((sampleStat "/").f_frsize : Int) :=
  enumerator_stat_arithmetic sampleStat ["ext4"] ["/dev/sda1 / ext4 rw 0 0"] false
    [⟨"/dev/sda1", "/", "ext4", 4096000, 3686400, 368640⟩] rfl
    ⟨"/dev/sda1", "/", "ext4", 4096000, 3686400, 368640⟩ (List.mem_singleton.2 rfl)

theorem mem_pySplitAux_ne_empty (cs : List Char) :
    ∀ (acc : List Char) (t : String), t ∈ pySplitAux cs acc → t ≠ "" := by
  induction cs with
  | nil =>
      intro acc t ht he
      rw [pySplitAux] at ht
      split at ht
      · exact absurd ht (List.not_mem_nil t)
      · next hne =>
          have hta : t = String.mk acc.reverse := by simpa using ht
          have hd := congrArg String.data (hta ▸ he)
          have : acc.reverse = [] := hd
          have : acc = [] := by simpa using this
          rw [this] at hne
          exact hne rfl
  | cons c cs ih =>
      intro acc t ht he
      rw [pySplitAux] at ht
      split at ht
      · split at ht
        · exact ih [] t ht he
        · next hne =>
            rcases List.mem_cons.1 ht with hta | ht'
            · have hd := congrArg String.data (hta ▸ he)
              have : acc.reverse = [] := hd
              have : acc = [] := by simpa using this
              rw [this] at hne
              exact hne rfl
            · exact ih [] t ht' he
      · exact ih (c :: acc) t ht he

theorem mem_pySplit_ne_empty (s t : String) (ht : t ∈ pySplit s) : t ≠ "" :=
  mem_pySplitAux_ne_empty s.data [] t ht

theorem processMtabLine_some_device (phydevs : List String)
    (statvfs : String → StatVFS) (line : String) (p : Partition)
    (h : processMtabLine false phydevs statvfs line = .ok (some p)) :
    pyStartsWith line "none" = false ∧
    ∃ device0, (pySplit line).get? 0 = some device0 ∧
      p.device = if device0 = "none" then "" else device0 := by
  rw [processMtabLine] at h
  split at h
  · next hcond =>
      exact absurd h (by simp)
  · next hcond =>
      have hs : pyStartsWith line "none" = false := by
        revert hcond
        cases pyStartsWith line "none" <;> simp
      refine ⟨hs, ?_⟩
      split at h
      · next device0 mountpoint fstype hg0 hg1 hg2 =>
          split at h
          · exact absurd h (by simp)
          · obtain rfl := (Option.some.inj (Except.ok.inj h)).symm
            exact ⟨device0, hg0, rfl⟩
      · exact absurd h (by simp)

/-- C9 counterexample: a mount line with leading whitespace whose device
field is "none" does not begin with the raw text "none", so it is not
skipped; the normalization branch fires and the emitted partition has an
empty device. -/
theorem enumerator_none_device_counterexample :
    pyStartsWith " none /run ext4 rw 0 0" "none" = false ∧
    disk_partitions sampleStat ["ext4"] [" none /run ext4 rw 0 0"] false =
      .ok [⟨"", "/run", "ext4", 4096000, 3686400, 368640⟩] :=
  ⟨by decide, by rfl⟩

/-- C9 amended: with `include_virtual = false` the Enumerator skips every
mount line whose raw text begins with "none"; provided every non-skipped
line's device field is not literally "none" (no leading whitespace
before a "none" device), every emitted partition has a device that is
non-empty and not "none" (the "none"-to-empty normalization never
fires). -/
theorem enumerator_none_skip_and_device (statvfs : String → StatVFS)
    (filesystems : List String) :
    (∀ pre post line, pyStartsWith line "none" = true →
        disk_partitions statvfs filesystems (pre ++ line :: post) false =
          disk_partitions statvfs filesystems (pre ++ post) false) ∧
    (∀ mtab parts,
        (∀ l ∈ mtab, pyStartsWith l "none" = false → (pySplit l).getD 0 "" ≠ "none") →
        disk_partitions statvfs filesystems mtab false = .ok parts →
        ∀ p ∈ parts, p.device ≠ "" ∧ p.device ≠ "none") := by
  constructor
  · intro pre post line hs
    unfold disk_partitions
    induction pre with
    | nil =>
        rw [List.nil_append, List.nil_append, enumerateMtab,
          processMtabLine_none_skip _ _ _ hs]
        cases h : enumerateMtab false (phydevsOf filesystems) statvfs post <;> simp [h]
    | cons q pre ih =>
        rw [List.cons_append, List.cons_append, enumerateMtab, enumerateMtab, ih]
  · intro mtab parts hdev h p hp
    obtain ⟨line, hline, hpl⟩ :=
      enumerateMtab_mem false (phydevsOf filesystems) statvfs mtab parts h p hp
    obtain ⟨hs, device0, hg0, hpd⟩ :=
      processMtabLine_some_device (phydevsOf filesystems) statvfs line p hpl
    have hd0mem : device0 ∈ pySplit line := List.get?_mem hg0
    have hd0ne : device0 ≠ "" := mem_pySplit_ne_empty line device0 hd0mem
    have hgetD : (pySplit line).getD 0 "" = device0 := by
      rw [List.getD_eq_get?, hg0]
      rfl
    have hd0nn : device0 ≠ "none" := hgetD ▸ hdev line hline hs
    rw [hpd, if_neg hd0nn]
    exact ⟨hd0ne, hd0nn⟩

/-- Witness for C9 amended: a "none"-prefixed line is dropped from the
enumeration, and the partitions of a well-formed table have non-empty,
non-"none" devices. -/
theorem enumerator_none_skip_and_device_check :
    (disk_partitions sampleStat ["ext4"]
        ([] ++ "none /run tmpfs rw 0 0" :: ["/dev/sda1 / ext4 rw 0 0"]) false =
      disk_partitions sampleStat ["ext4"] ([] ++ ["/dev/sda1 / ext4 rw 0 0"]) false) ∧
    (∀ p ∈ ([⟨"/dev/sda1", "/", "ext4", 4096000, 3686400, 368640⟩] : List Partition),
        p.device ≠ "" ∧ p.device ≠ "none") :=
  ⟨(enumerator_none_skip_and_device sampleStat ["ext4"]).1 [] ["/dev/sda1 / ext4 rw 0 0"]
      "none /run tmpfs rw 0 0" (by decide),
    (enumerator_none_skip_and_device sampleStat ["ext4"]).2 ["/dev/sda1 / ext4 rw 0 0"]
      [⟨"/dev/sda1", "/", "ext4", 4096000, 3686400, 368640⟩] (by decide) rfl⟩

/-- C10: a mount line with fewer than three fields makes the Enumerator
fail with an out-of-range field access (Python `IndexError`) instead of
returning a partition sequence; when every non-skipped line has at
least three fields, enumeration always returns a sequence. -/
theorem enumerator_short_line_fails :
    disk_partitions (fun _ => ⟨1, 1, 1, 1⟩) ["ext4"] ["/dev/sda1 /"] false = .error "IndexError" ∧
    (∀ (statvfs : String → StatVFS) (filesystems mtab : List String),
        (∀ line ∈ mtab, pyStartsWith line "none" = true ∨ 3 ≤ (pySplit line).length) →
        ∃ parts, disk_partitions statvfs filesystems mtab false = .ok parts) := by
  refine ⟨by rfl, ?_⟩
  intro statvfs filesystems mtab h
  unfold disk_partitions
  induction mtab with
  | nil => exact ⟨[], rfl⟩
  | cons line rest ih =>
      obtain ⟨ps, hps⟩ := ih (fun l hl => h l (List.mem_cons_of_mem _ hl))
      cases hs : pyStartsWith line "none" with
      | true =>
          refine ⟨ps, ?_⟩
          rw [enumerateMtab, processMtabLine_none_skip _ _ _ hs, hps]
          rfl
      | false =>
          have hlen : 3 ≤ (pySplit line).length := by
            rcases h line (List.mem_cons_self _ _) with hs' | hlen
            · rw [hs] at hs'; cases hs'
            · exact hlen
          rw [enumerateMtab, processMtabLine_no_skip _ _ _ hs hlen]
          by_cases hc : ((phydevsOf filesystems).contains ((pySplit line).getD 2 "")) = true
          · refine ⟨mkPartition statvfs line :: ps, ?_⟩
            rw [if_pos hc, hps]
            rfl
          · refine ⟨ps, ?_⟩
            rw [if_neg (by simpa using hc), hps]
            rfl

/-- Witness for C10's totality part on a concrete well-formed table. -/
theorem enumerator_short_line_fails_check :
    ∃ parts, disk_partitions sampleStat ["ext4"]
      ["none /run tmpfs rw 0 0", "/dev/sda1 / ext4 rw 0 0"] false = .ok parts :=
  enumerator_short_line_fails.2 sampleStat ["ext4"]
    ["none /run tmpfs rw 0 0", "/dev/sda1 / ext4 rw 0 0"] (by decide)

theorem slack_print_failure (deliver : String → String → Option SlackApiError)
    (msg channel : String) (e0 : SlackApiError) (hd : deliver msg channel = some e0)
    (hok : e0.ok = false) (herr : e0.error ≠ "") :
    slack_print deliver msg channel =
      .ok [.apiCall msg channel, .printed ("Got an error: " ++ e0.error)] := by
  rw [slack_print, hd]
  exact if_pos ⟨hok, herr⟩

theorem notify_alerts_ok (deliver : String → String → Option SlackApiError)
    (channel : String)
    (hwf : ∀ m c e, deliver m c = some e → e.ok = false ∧ e.error ≠ "")
    (msgs : List String) :
    ∃ es, notify_alerts deliver channel msgs = .ok es ∧
      ∀ m ∈ msgs, Event.printed m ∈ es ∧ Event.apiCall m channel ∈ es ∧
        ∀ e, deliver m channel = some e →
          Event.printed ("Got an error: " ++ e.error) ∈ es := by
  induction msgs with
  | nil => exact ⟨[], rfl, by simp⟩
  | cons msg rest ih =>
      obtain ⟨es, hes, hmem⟩ := ih
      cases hd : deliver msg channel with
      | none =>
          refine ⟨(Event.printed msg :: [Event.apiCall msg channel]) ++ es, ?_, ?_⟩
          · rw [notify_alerts, slack_print, hd, hes]
          · intro m hm
            rcases List.mem_cons.1 hm with rfl | hm'
            · refine ⟨by simp, by simp, fun e he => ?_⟩
              rw [hd] at he
              cases he
            · obtain ⟨h1, h2, h3⟩ := hmem m hm'
              exact ⟨by simp [h1], by simp [h2], fun e he => by simp [h3 e he]⟩
      | some e0 =>
          obtain ⟨hok, herr⟩ := hwf _ _ _ hd
          refine ⟨(Event.printed msg :: [Event.apiCall msg channel,
              Event.printed ("Got an error: " ++ e0.error)]) ++ es, ?_, ?_⟩
          · rw [notify_alerts, slack_print_failure deliver msg channel e0 hd hok herr, hes]
          · intro m hm
            rcases List.mem_cons.1 hm with rfl | hm'
            · refine ⟨by simp, by simp, fun e he => ?_⟩
              rw [hd] at he
              obtain rfl := Option.some.inj he
              simp
            · obtain ⟨h1, h2, h3⟩ := hmem m hm'
              exact ⟨by simp [h1], by simp [h2], fun e he => by simp [h3 e he]⟩

/-- C4: with a resolvable credential and a successful enumeration, the
run completes with exit code 0 and, for every constructed alert, the
alert message is printed and its delivery is attempted regardless of
other alerts' outcomes; a delivery failure is logged with the error's
machine-readable reason and aborts nothing. -/
theorem alerts_printed_and_delivery_isolated
    (deliver : String → String → Option SlackApiError)
    (statvfs : String → StatVFS) (filesystems mtab : List String)
    (hostname : String) (token envToken : Option String)
    (threshold : ℚ) (thresholdStr channel : String) (t : String) (parts : List Partition)
    (hwf : ∀ m c e, deliver m c = some e → e.ok = false ∧ e.error ≠ "")
    (hres : resolve_token token envToken = some t)
    (henum : disk_partitions statvfs filesystems mtab false = .ok parts) :
    ∃ tr, run_main deliver statvfs filesystems mtab hostname token envToken threshold
        thresholdStr channel = .ok tr ∧
      tr.exitCode = 0 ∧
      ∀ pm ∈ evaluate_alerts threshold hostname thresholdStr (select_disk_partitions parts),
        Event.printed pm.2 ∈ tr.events ∧
        Event.apiCall pm.2 channel ∈ tr.events ∧
        ∀ e, deliver pm.2 channel = some e →
          Event.printed ("Got an error: " ++ e.error) ∈ tr.events := by
  obtain ⟨es, hes, hmem⟩ := notify_alerts_ok deliver channel hwf
    ((evaluate_alerts threshold hostname thresholdStr (select_disk_partitions parts)).map Prod.snd)
  refine ⟨⟨parts.map (fun p => Event.statQuery p.mountpoint) ++ es, 0⟩, ?_, rfl, ?_⟩
  · simp only [run_main, main_scan, hres, henum, hes]
  · intro pm hpm
    have hsnd : pm.2 ∈ (evaluate_alerts threshold hostname thresholdStr
        (select_disk_partitions parts)).map Prod.snd := List.mem_map_of_mem _ hpm
    obtain ⟨h1, h2, h3⟩ := hmem pm.2 hsnd
    exact ⟨by simp [h1], by simp [h2], fun e he => by simp [h3 e he]⟩

/-- A Slack client that always fails with `invalid_auth`, used as a
concrete delivery model. -/
def alwaysFailClient : String → String → Option SlackApiError :=
  fun _ _ => some ⟨false, "invalid_auth"⟩

/-- Witness for C4: an alerting partition whose delivery always fails
still has its alert printed, its delivery attempted and the failure
logged, with exit code 0. -/
theorem alerts_printed_and_delivery_isolated_check :
    ∃ tr, run_main alwaysFailClient sampleStat ["ext4"] ["/dev/sda1 / ext4 rw 0 0"] "host"
        (some "xoxb") none 1000000000 "1 GB" "#chan" = .ok tr ∧
      tr.exitCode = 0 ∧
      ∀ pm ∈ evaluate_alerts 1000000000 "host" "1 GB" (select_disk_partitions
          [⟨"/dev/sda1", "/", "ext4", 4096000, 3686400, 368640⟩]),
        Event.printed pm.2 ∈ tr.events ∧
        Event.apiCall pm.2 "#chan" ∈ tr.events ∧
        ∀ e, alwaysFailClient pm.2 "#chan" = some e →
          Event.printed ("Got an error: " ++ e.error) ∈ tr.events :=
  alerts_printed_and_delivery_isolated alwaysFailClient sampleStat ["ext4"]
    ["/dev/sda1 / ext4 rw 0 0"] "host" (some "xoxb") none 1000000000 "1 GB" "#chan" "xoxb"
    [⟨"/dev/sda1", "/", "ext4", 4096000, 3686400, 368640⟩]
    (fun m c e he => by
      obtain rfl := Option.some.inj he
      exact ⟨rfl, by decide⟩)
    rfl rfl
